import Mathlib

/-!
Shallow embedding of the asynchronous job pipeline of LaunchWeekAI
(`src/app/api/jobs/simple-start/route.ts`, with the shared in-memory store
declared in `src/app/api/generate/route.ts`).

JavaScript-specific behaviour is modelled explicitly:
  * `x || d` on strings treats the empty string as falsy (`jsOr`);
  * `!!x` truthiness of an optional string (`jsTruthy`);
  * a JSON field that may be absent or not a string is an `Option String`;
  * the wall-clock date read by `new Date().toLocaleDateString()` and the
    responses of the outbound `fetch` calls are inputs supplied by an
    explicit environment (`Env`).
-/

namespace LaunchWeek

/-- Job status as in the `PlaybookData` interface of `generate/route.ts`:
`'processing' | 'complete' | 'failed'`. -/
inductive Status where
  | processing
  | complete
  | failed
  deriving DecidableEq, Repr

/-- The `progress` object written by `simple-start/route.ts`:
`{ currentStep, totalSteps, stepName, estimatedTimeRemaining }`. -/
structure Progress where
  currentStep : Nat
  totalSteps : Nat
  stepName : String
  estimatedTimeRemaining : Nat
  deriving DecidableEq, Repr

/-- A job record stored in `playbookStorage`. The module-level interface marks
`progress` optional, but every record created by the modelled flow
(`simple-start` POST) sets it, so it is a plain field here. `playbook` and
`error` are `null` until set, hence `Option`. -/
structure PlaybookData where
  status : Status
  playbook : Option String
  error : Option String
  createdAt : String
  progress : Progress
  deriving DecidableEq, Repr

/-- The shared `playbookStorage : Map<string, PlaybookData>`, embedded as an
association list with at most one entry per key. -/
abbrev Store := List (String × PlaybookData)

/-- `Map.get`: the value at a key, or `none`. -/
def Store.get : Store → String → Option PlaybookData
  | [], _ => none
  | (k, v) :: rest, key => if k = key then some v else Store.get rest key

/-- `Map.set`: replace the value at an existing key, or append a fresh entry. -/
def Store.set : Store → String → PlaybookData → Store
  | [], key, v => [(key, v)]
  | (k, w) :: rest, key, v =>
      if k = key then (k, v) :: rest else (k, w) :: Store.set rest key v

/-- `Map.has`. -/
def Store.has (s : Store) (k : String) : Bool :=
  (Store.get s k).isSome

/-- JavaScript `v || d` for an optional string: `undefined`/`null` and the
empty string are falsy and yield the default. -/
def jsOr (v : Option String) (d : String) : String :=
  match v with
  | none => d
  | some s => if s = "" then d else s

/-- JavaScript `!!v` for an optional string. -/
def jsTruthy (v : Option String) : Bool :=
  match v with
  | none => false
  | some s => !(s == "")

/-- The fields of the extracted context that `createFinalPlaybook` reads
(through `context?.field || default`). An absent context object behaves like
one with every field absent, because every access is optional-chained. -/
structure Ctx where
  productName : Option String
  coreValueProposition : Option String
  productCategory : Option String
  productStage : Option String
  targetMarketSize : Option String
  deriving DecidableEq, Repr

/-- One entry of the `steps` array of `processInBackground`:
`{ id, name, time }`. -/
structure StageDef where
  id : String
  name : String
  time : Nat
  deriving DecidableEq, Repr

/-- The `steps` array (lines 90–96 of `simple-start/route.ts`). -/
def steps : List StageDef :=
  [⟨"target-user-analysis", "Analyzing target users", 45⟩,
   ⟨"launch-timeline", "Creating launch timeline", 30⟩,
   ⟨"platform-strategy", "Developing platform strategy", 20⟩,
   ⟨"content-templates", "Generating content templates", 15⟩,
   ⟨"metrics-dashboard", "Setting up metrics dashboard", 5⟩]

/-- Lookup in a `Record<string, string>` embedded as an association list in
insertion order (keys are assigned at most once in the modelled code). -/
def lookupStr (m : List (String × String)) (k : String) : Option String :=
  (m.find? (fun p => p.1 = k)).map (fun p => p.2)

/-- JavaScript `word.charAt(0).toUpperCase() + word.slice(1)` (ASCII input). -/
def capitalize (s : String) : String :=
  match s.data with
  | [] => ""
  | c :: rest => String.mk (c.toUpper :: rest)

/-- The section heading built in `createFinalPlaybook`:
`stepId.split('-').map(capitalize).join(' ').toUpperCase()`. -/
def sectionTitle (stepId : String) : String :=
  (String.intercalate " " ((stepId.splitOn "-").map capitalize)).toUpper

/-- The `stepOrder` array of `createFinalPlaybook`. -/
def stepOrder : List String :=
  ["target-user-analysis", "launch-timeline", "platform-strategy",
   "content-templates", "metrics-dashboard"]

/-- `createFinalPlaybook(context, steps)` (lines 167–194). The string produced
by `new Date().toLocaleDateString()` at the moment of assembly is the explicit
`dateStr` argument. -/
def createFinalPlaybook (dateStr : String) (context : Ctx)
    (stepsMap : List (String × String)) : String :=
  let allResults := String.intercalate "\n\n---\n\n" (stepOrder.map (fun stepId =>
    "# " ++ sectionTitle stepId ++ "\n\n" ++
      jsOr (lookupStr stepsMap stepId) "Generation failed"))
  "# Launch Playbook for " ++ jsOr context.productName "Your Product" ++
  "\n\n*Generated on " ++ dateStr ++ "*\n\n## Context Summary\n- **Product:** " ++
  jsOr context.productName "Not specified" ++ " - " ++
  jsOr context.coreValueProposition "Not specified" ++ "\n- **Category:** " ++
  jsOr context.productCategory "Not specified" ++ "  \n- **Stage:** " ++
  jsOr context.productStage "Not specified" ++ "\n- **Target Market:** " ++
  jsOr context.targetMarketSize "Not specified" ++ "\n\n---\n\n" ++
  allResults ++
  "\n\n---\n\n*This playbook was generated by Launch Week AI. For questions or feedback, contact support@launchweek.ai*"

/-- Outcome of one `fetch` of `/api/generate-step` as seen by
`processInBackground`: the awaited call (or the `json()` of an ok response)
rejects with an `Error` whose message is `msg`; or the response is ok and its
JSON carries `result`; or `stepResponse.ok` is false. -/
inductive StepOutcome where
  | thrown (msg : String)
  | ok (result : String)
  | notOk
  deriving DecidableEq, Repr

/-- Environment of one background run: what the outside world answers.
`ctxResult` is the `/api/extract-context` round-trip — either an exception
(fetch or `json()` rejects) or the destructured `context` value; a response
without a usable `context` behaves as the all-`none` `Ctx`, since every later
access is optional-chained. `stepOutcome i` is the `/api/generate-step`
round-trip for loop index `i`. `dateStr` is the wall-clock date string at
assembly time. -/
structure Env where
  ctxResult : Except String Ctx
  stepOutcome : Nat → StepOutcome
  dateStr : String

/-- The request body of one `/api/generate-step` call:
`{ markdown, context, step: step.id, previousSteps }`. -/
structure StepInvocation where
  markdown : String
  context : Ctx
  step : String
  previousSteps : List (String × String)
  deriving DecidableEq, Repr

/-- The guarded update pattern of `processInBackground`:
`if (storage.has(jobId)) { const job = storage.get(jobId); mutate; storage.set(jobId, job) }`
(and the equivalent `const j = get(...); if (j) {...}` at lines 63–69).
Returns the new store and the list of values written (empty or singleton). -/
def updateJob (store : Store) (jobId : String) (f : PlaybookData → PlaybookData) :
    Store × List PlaybookData :=
  match Store.get store jobId with
  | some job => (Store.set store jobId (f job), [f job])
  | none => (store, [])

/-- The progress mutation at the top of loop iteration `i` (lines 105–111):
`currentStep = i + 3`, `stepName = step.name`,
`estimatedTimeRemaining = step.time`. -/
def stepProgress (i : Nat) (s : StageDef) (job : PlaybookData) : PlaybookData :=
  { job with
    progress :=
      { job.progress with
        currentStep := i + 3
        stepName := s.name
        estimatedTimeRemaining := s.time } }

/-- Result of the stage loop: final store, values written to the job's key in
order, the `/api/generate-step` request bodies in order, and either the thrown
error message or the accumulated `stepResults`. -/
structure LoopResult where
  store : Store
  writes : List PlaybookData
  invocations : List StepInvocation
  outcome : Except String (List (String × String))

/-- The `for` loop of `processInBackground` (lines 101–135) over the
enumerated `steps` array, threading the store, `stepResults` and
`previousSteps`. An ok response records the result under the stage id in both
maps; a non-ok response records the placeholder `Failed to generate <id>` in
`stepResults` only; a rejection aborts the loop. -/
def runSteps (env : Env) (jobId markdown : String) (ctx : Ctx) :
    List (Nat × StageDef) → Store → List (String × String) →
      List (String × String) → LoopResult
  | [], store, stepResults, _prev =>
      ⟨store, [], [], .ok stepResults⟩
  | (i, s) :: rest, store, stepResults, prev =>
      let (store1, w1) := updateJob store jobId (stepProgress i s)
      let inv : StepInvocation := ⟨markdown, ctx, s.id, prev⟩
      match env.stepOutcome i with
      | .thrown msg => ⟨store1, w1, [inv], .error msg⟩
      | .ok result =>
          let r := runSteps env jobId markdown ctx rest store1
            (stepResults ++ [(s.id, result)]) (prev ++ [(s.id, result)])
          ⟨r.store, w1 ++ r.writes, inv :: r.invocations, r.outcome⟩
      | .notOk =>
          let r := runSteps env jobId markdown ctx rest store1
            (stepResults ++ [(s.id, "Failed to generate " ++ s.id)]) prev
          ⟨r.store, w1 ++ r.writes, inv :: r.invocations, r.outcome⟩

/-- The progress mutation of lines 63–69: `stepName = 'Extracting context...'`,
`currentStep = 1`, `estimatedTimeRemaining = 75`. -/
def extractProgress (job : PlaybookData) : PlaybookData :=
  { job with
    progress :=
      { job.progress with
        stepName := "Extracting context..."
        currentStep := 1
        estimatedTimeRemaining := 75 } }

/-- The progress mutation of lines 81–87: `currentStep = 2`,
`stepName = 'Generating user analysis...'`, `estimatedTimeRemaining = 60`. -/
def analysisProgress (job : PlaybookData) : PlaybookData :=
  { job with
    progress :=
      { job.progress with
        currentStep := 2
        stepName := "Generating user analysis..."
        estimatedTimeRemaining := 60 } }

/-- The `catch` block of `processInBackground` (lines 153–164): set `status`
to `failed` and `error` to the exception's message, leaving every other field
as it was. -/
def markFailed (msg : String) (job : PlaybookData) : PlaybookData :=
  { job with
    status := .failed
    error := some msg }

/-- The completion write (lines 141–149): `status = 'complete'`, the assembled
playbook, `currentStep = 6`, terminal step name, zero time remaining. -/
def markComplete (finalPlaybook : String) (job : PlaybookData) : PlaybookData :=
  { job with
    status := .complete
    playbook := some finalPlaybook
    progress :=
      { job.progress with
        currentStep := 6
        stepName := "Completed successfully!"
        estimatedTimeRemaining := 0 } }

/-- Result of one background run. -/
structure BgResult where
  store : Store
  writes : List PlaybookData
  invocations : List StepInvocation

/-- `processInBackground(jobId, markdown)` (lines 56–165) against an
environment, starting from a given store. Every `storage.set` performed is to
`jobId` and is recorded in `writes` in execution order. -/
def processInBackground (env : Env) (jobId markdown : String) (store : Store) :
    BgResult :=
  let (store1, w1) := updateJob store jobId extractProgress
  match env.ctxResult with
  | .error msg =>
      let (st, w) := updateJob store1 jobId (markFailed msg)
      ⟨st, w1 ++ w, []⟩
  | .ok ctx =>
      let (store2, w2) := updateJob store1 jobId analysisProgress
      let r := runSteps env jobId markdown ctx steps.enum store2 [] []
      match r.outcome with
      | .error msg =>
          let (st, w) := updateJob r.store jobId (markFailed msg)
          ⟨st, w1 ++ w2 ++ r.writes ++ w, r.invocations⟩
      | .ok stepResults =>
          let final := createFinalPlaybook env.dateStr ctx stepResults
          let (st, w) := updateJob r.store jobId (markComplete final)
          ⟨st, w1 ++ w2 ++ r.writes ++ w, r.invocations⟩

/-- The initial record written by the POST handler (lines 24–35). -/
def initialRecord (createdAt : String) : PlaybookData :=
  { status := .processing
    playbook := none
    error := none
    createdAt := createdAt
    progress :=
      { currentStep := 0
        totalSteps := 6
        stepName := "Starting generation..."
        estimatedTimeRemaining := 90 } }

/-- Response of `POST /api/jobs/simple-start`. -/
inductive StartResponse where
  | ok (jobId : String) (status : Status) (pollUrl : String)
  | badRequest (error : String)
  deriving DecidableEq, Repr

/-- The body check of the POST handler (line 11):
`!markdown || typeof markdown !== 'string'` — a missing or non-string field is
`none`; the empty string is falsy and also rejected. -/
def validMarkdown : Option String → Bool
  | none => false
  | some s => !(s == "")

/-- The synchronous part of `POST /api/jobs/simple-start` (lines 4–53), up to
and including its `return`: validate, create the job id (supplied here by the
caller, standing for `uuidv4()`), write the initial record, answer. The
background task is started but not awaited (it performs no store access
before its first suspension point), so it is modelled separately by
`processInBackground`. A body that fails to parse as JSON answers 500 in the
handler's outer catch; the model's input space is the parsed body, with a
missing or non-string `markdown` field as `none`. -/
def simpleStartPost (store : Store) (jobId createdAt : String)
    (markdown : Option String) : StartResponse × Store :=
  if validMarkdown markdown then
    (StartResponse.ok jobId .processing ("/api/jobs/simple-status?id=" ++ jobId),
     Store.set store jobId (initialRecord createdAt))
  else
    (StartResponse.badRequest "Markdown content is required", store)

/-- The complete `start` flow: the synchronous POST followed by the
fire-and-forget background run. The response is the one the POST already
returned; the store is the one after the background run finishes. -/
def simpleStartFull (env : Env) (store : Store) (jobId createdAt : String)
    (markdown : Option String) : StartResponse × Store :=
  match simpleStartPost store jobId createdAt markdown with
  | (StartResponse.ok j s u, store1) =>
      (StartResponse.ok j s u,
       (processInBackground env j (markdown.getD "") store1).store)
  | other => other

/-- The write sequence observed at the job's key from creation to the terminal
write: the initial POST write followed by every background write. -/
def jobTrace (env : Env) (jobId createdAt markdown : String) (store0 : Store) :
    List PlaybookData :=
  initialRecord createdAt ::
    (processInBackground env jobId markdown
      (Store.set store0 jobId (initialRecord createdAt))).writes

/-- The JSON body answered by `GET /api/jobs/simple-status` for a known job
(lines 222–232 of the route file): note that it carries `hasPlaybook`, a
boolean, and not the stored playbook text itself. -/
structure StatusResponse where
  jobId : String
  status : Status
  progress : Progress
  error : Option String
  createdAt : String
  playbookUrl : Option String
  hasPlaybook : Bool
  deriving DecidableEq, Repr

/-- The three answer shapes of the GET handler. -/
inductive GetResult where
  | ok (r : StatusResponse)
  | notFound (error : String)
  | badRequest (error : String)
  deriving DecidableEq, Repr

/-- `GET /api/jobs/simple-status?id=...` (the second handler of the route
file): `searchParams.get('id')` is `none` when absent; `!jobId` also rejects
the empty string; an unknown id is 404; otherwise the record is projected
into the response, with `playbookUrl` non-null exactly for `complete`. -/
def simpleStatusGet (store : Store) (jobId : Option String) : GetResult :=
  match jobId with
  | none => GetResult.badRequest "Job ID is required"
  | some id =>
      if id = "" then GetResult.badRequest "Job ID is required"
      else
        match Store.get store id with
        | none => GetResult.notFound "Job not found"
        | some job =>
            GetResult.ok
              { jobId := id
                status := job.status
                progress := job.progress
                error := job.error
                createdAt := job.createdAt
                playbookUrl :=
                  if job.status = .complete then some ("/playbook/" ++ id)
                  else none
                hasPlaybook := jsTruthy job.playbook }

/-- The validation chain of `POST /api/generate` (lines 25–45 of
`generate/route.ts`): missing/non-string or falsy-empty input, then the
50,000-character ceiling, then the 100-character floor on the trimmed text.
Returns the error message produced, or `none` when the input is accepted. -/
def generateValidate (markdown : Option String) : Option String :=
  match markdown with
  | none => some "Markdown content is required"
  | some md =>
      if md = "" then some "Markdown content is required"
      else if md.length > 50000 then
        some "Markdown content exceeds 50,000 character limit"
      else if md.trim.length < 100 then
        some "Markdown content too short. Please provide more detailed documentation."
      else none

/-! Concrete environments used by counterexamples and witnesses. -/

/-- A context whose optional fields are all absent. -/
def ctxA : Ctx := ⟨none, none, none, none, none⟩

/-- Every stage generation call returns ok with text `X`; context extraction
succeeds. -/
def envAllOk : Env := ⟨.ok ctxA, fun _ => .ok "X", "1/1/2025"⟩

/-- Stage `k` answers with a non-ok HTTP response; every other call is ok. -/
def envStepNotOk (k : Nat) : Env :=
  ⟨.ok ctxA, fun i => if i = k then .notOk else .ok "X", "1/1/2025"⟩

/-- Stage `k`'s call rejects with message `msg`; every other call is ok. -/
def envStepThrown (k : Nat) (msg : String) : Env :=
  ⟨.ok ctxA, fun i => if i = k then .thrown msg else .ok "X", "1/1/2025"⟩

/-- Stage `k` answers ok with empty text; every other call is ok. -/
def envStepEmpty (k : Nat) : Env :=
  ⟨.ok ctxA, fun i => if i = k then .ok "" else .ok "X", "1/1/2025"⟩

/-- A one-job store as created by the POST handler for job id `job1`. -/
def storeOne : Store := Store.set [] "job1" (initialRecord "T")

/-- An input of exactly 50,001 characters. -/
def maxPlusOne : String := String.mk (List.replicate 50001 'a')

/-- C2: the fully successful run writes the progress pairs
`(currentStep, totalSteps)` in the order `0,1,2,3,4,5,6,7,6` against a
constant `totalSteps = 6` — the next-to-last write exceeds `totalSteps` and
the terminal write then decreases `currentStep`. -/
theorem progress_write_sequence :
    (jobTrace envAllOk "job1" "T" "md" []).map
      (fun p => (p.progress.currentStep, p.progress.totalSteps)) =
      [(0, 6), (1, 6), (2, 6), (3, 6), (4, 6), (5, 6), (6, 6), (7, 6), (6, 6)] := by
  decide

/-- C6 counterexample: `createFinalPlaybook` reads the wall clock
(`new Date().toLocaleDateString()`), so two calls with byte-identical stage
outputs and context produce different artifacts when the observed date
differs — the assembler is not a function of its two inputs alone. -/
theorem assembler_not_input_deterministic_cex :
    createFinalPlaybook "1/1/2025" ctxA [] ≠ createFinalPlaybook "1/2/2025" ctxA [] := by
  decide

/-- C6 amended: the artifact is a deterministic function of the stage
outputs, the summary context and the observed date: two calls that observe
the same date string produce byte-identical artifacts. -/
theorem assembler_deterministic_amended (d₁ d₂ : String) (context : Ctx)
    (stepsMap : List (String × String)) (h : d₁ = d₂) :
    createFinalPlaybook d₁ context stepsMap = createFinalPlaybook d₂ context stepsMap := by
  rw [h]

/-- C6 witness: the amended determinism applied at a concrete date, context
and stage-output map. -/
theorem assembler_deterministic_amended_witness :
    createFinalPlaybook "1/1/2025" ctxA [("launch-timeline", "X")] =
      createFinalPlaybook "1/1/2025" ctxA [("launch-timeline", "X")] :=
  assembler_deterministic_amended "1/1/2025" "1/1/2025" ctxA
    [("launch-timeline", "X")] rfl

/-- C7 counterexample: two complete records that differ only in the stored
playbook text produce byte-identical status responses, so the status endpoint
cannot be returning the stored `result` — it exposes only the boolean
`hasPlaybook` and the derived `playbookUrl`. -/
theorem status_omits_result_cex :
    (simpleStatusGet
        [("j1", { status := .complete, playbook := some "P1", error := none,
                  createdAt := "T", progress := ⟨6, 6, "done", 0⟩ })] (some "j1") =
      simpleStatusGet
        [("j1", { status := .complete, playbook := some "P2", error := none,
                  createdAt := "T", progress := ⟨6, 6, "done", 0⟩ })] (some "j1")) ∧
    (some "P1" : Option String) ≠ some "P2" := by
  constructor
  · decide
  · decide

/-- C7 amended: for a non-empty id, `status` answers `NotFound` exactly on an
unknown id (never a synthesized record), and on a known id returns the stored
record's `status`, `progress`, `error` and `createdAt` — but not the stored
result text, only the boolean `hasPlaybook` — together with `playbookUrl`,
which is computed from the job id alone as `/playbook/<id>` and is non-null
exactly when the status is `complete`. -/
theorem status_endpoint_amended (store : Store) (id : String) (job : PlaybookData)
    (hid : id ≠ "") :
    (Store.get store id = none →
      simpleStatusGet store (some id) = GetResult.notFound "Job not found") ∧
    (Store.get store id = some job →
      simpleStatusGet store (some id) =
        GetResult.ok
          { jobId := id
            status := job.status
            progress := job.progress
            error := job.error
            createdAt := job.createdAt
            playbookUrl :=
              if job.status = .complete then some ("/playbook/" ++ id) else none
            hasPlaybook := jsTruthy job.playbook } ∧
      ((if job.status = .complete then some ("/playbook/" ++ id)
          else (none : Option String)).isSome ↔ job.status = .complete)) := by
  constructor
  · intro hget
    simp [simpleStatusGet, hid, hget]
  · intro hget
    refine ⟨by simp [simpleStatusGet, hid, hget], ?_⟩
    by_cases hc : job.status = .complete <;> simp [hc]

/-- C7 witness: the amended status contract applied to a concrete store
holding one complete job. -/
theorem status_endpoint_amended_witness :
    simpleStatusGet
        [("j1", { status := .complete, playbook := some "P1", error := none,
                  createdAt := "T", progress := ⟨6, 6, "done", 0⟩ })] (some "j1") =
      GetResult.ok
        { jobId := "j1", status := .complete, progress := ⟨6, 6, "done", 0⟩,
          error := none, createdAt := "T",
          playbookUrl := some "/playbook/j1", hasPlaybook := true } :=
  ((status_endpoint_amended
      [("j1", { status := .complete, playbook := some "P1", error := none,
                createdAt := "T", progress := ⟨6, 6, "done", 0⟩ })] "j1"
      { status := .complete, playbook := some "P1", error := none,
        createdAt := "T", progress := ⟨6, 6, "done", 0⟩ }
      (by decide)).2 (by decide)).1

/-- C5 counterexample: an input of 50,001 characters — above the configured
50,000-character maximum — is accepted by the async job launcher
(`simple-start` POST), which creates the job and answers ok: the launcher
performs no length validation at all. -/
theorem overlong_input_accepted_cex :
    maxPlusOne.length = 50001 ∧
    (simpleStartPost [] "j1" "T" (some maxPlusOne)).1 =
      StartResponse.ok "j1" .processing "/api/jobs/simple-status?id=j1" ∧
    Store.get (simpleStartPost [] "j1" "T" (some maxPlusOne)).2 "j1" =
      some (initialRecord "T") := by
  refine ⟨?_, rfl, rfl⟩
  rw [maxPlusOne, String.length_mk, List.length_replicate]

/-- C5 amended: the async launcher (`simple-start` POST) rejects exactly the
missing, non-string or empty input — with no length bounds, so any non-empty
string of any length creates a job — while the length bounds live in the
synchronous `generate` endpoint, which accepts an input exactly when it is
non-empty, at most 50,000 characters long, and at least 100 characters after
trimming; a rejected `simple-start` request leaves the store unchanged. -/
theorem start_validation_amended (store : Store) (jobId createdAt : String)
    (md : Option String) (md' : String) :
    ((simpleStartPost store jobId createdAt md).1 =
        StartResponse.badRequest "Markdown content is required" ↔
      (md = none ∨ md = some "")) ∧
    (∀ e, (simpleStartPost store jobId createdAt md).1 = StartResponse.badRequest e →
      (simpleStartPost store jobId createdAt md).2 = store) ∧
    (generateValidate (some md') = none ↔
      md' ≠ "" ∧ md'.length ≤ 50000 ∧ 100 ≤ md'.trim.length) := by
  refine ⟨?_, ?_, ?_⟩
  · match md with
    | none => simp [simpleStartPost, validMarkdown]
    | some s =>
      by_cases h : s = "" <;> simp [simpleStartPost, validMarkdown, h]
  · intro e he
    match md with
    | none => rfl
    | some s =>
      by_cases h : s = ""
      · simp [simpleStartPost, validMarkdown, h]
      · simp [simpleStartPost, validMarkdown, h] at he
  · simp only [generateValidate]
    by_cases h0 : md' = "" <;> simp [h0]
    constructor
    · intro h
      split at h
      · exact absurd h (by simp)
      · rename_i hlen
        split at h
        · exact absurd h (by simp)
        · rename_i htrim
          exact ⟨by omega, by omega⟩
    · rintro ⟨h1, h2⟩
      rw [if_neg (by omega), if_neg (by omega)]

/-- C5 witness: a missing body is rejected and creates no job, applied at a
concrete store. -/
theorem start_validation_amended_witness :
    (simpleStartPost [] "j1" "T" none).2 = [] :=
  (start_validation_amended [] "j1" "T" none "x").2.1
    "Markdown content is required" (by decide)

/-- C1 counterexample: when stage 1's generation call answers with a non-ok
response, the orchestrator does not fail the job: all five stages are still
invoked, the job ends `complete`, and an artifact is assembled and stored. -/
theorem halt_on_failure_cex :
    ((Store.get (processInBackground (envStepNotOk 0) "job1" "md" storeOne).store "job1").map
      PlaybookData.status) = some .complete ∧
    (processInBackground (envStepNotOk 0) "job1" "md" storeOne).invocations.map
      StepInvocation.step = steps.map StageDef.id ∧
    ((Store.get (processInBackground (envStepNotOk 0) "job1" "md" storeOne).store "job1").bind
      PlaybookData.playbook).isSome = true := by
  refine ⟨rfl, rfl, rfl⟩

/-- C1 amended: only a rejected (thrown) generation call halts the pipeline —
the job then becomes `failed` with the exception's message (which does not
name the stage), no later stage is invoked and no artifact is stored — while
a non-ok response merely records the placeholder `Failed to generate <id>`
for that stage: every later stage still runs and the job completes with an
assembled artifact. -/
theorem halt_on_failure_amended (k : Nat) (hk : k < 5) (msg : String) :
    ((Store.get (processInBackground (envStepThrown k msg) "job1" "md" storeOne).store "job1").map
      PlaybookData.status) = some .failed ∧
    ((Store.get (processInBackground (envStepThrown k msg) "job1" "md" storeOne).store "job1").bind
      PlaybookData.error) = some msg ∧
    ((Store.get (processInBackground (envStepThrown k msg) "job1" "md" storeOne).store "job1").bind
      PlaybookData.playbook) = none ∧
    (processInBackground (envStepThrown k msg) "job1" "md" storeOne).invocations.length = k + 1 ∧
    ((Store.get (processInBackground (envStepNotOk k) "job1" "md" storeOne).store "job1").map
      PlaybookData.status) = some .complete ∧
    (processInBackground (envStepNotOk k) "job1" "md" storeOne).invocations.map
      StepInvocation.step = steps.map StageDef.id := by
  interval_cases k <;> exact ⟨rfl, rfl, rfl, rfl, rfl, rfl⟩

/-- C1 witness: a rejected call at stage 2 leaves the job `failed`. -/
theorem halt_on_failure_amended_witness :
    ((Store.get (processInBackground (envStepThrown 1 "boom") "job1" "md" storeOne).store "job1").map
      PlaybookData.status) = some .failed :=
  (halt_on_failure_amended 1 (by decide) "boom").1

/-- C4 counterexample: a stage call that answers ok with empty text is
recorded as that stage's successful output — the empty string is passed to
the next stage's `previousSteps` — and the job still completes; no typed
failure is produced. -/
theorem empty_output_success_cex :
    ((processInBackground (envStepEmpty 0) "job1" "md" storeOne).invocations.get? 1).map
      StepInvocation.previousSteps = some [("target-user-analysis", "")] ∧
    ((Store.get (processInBackground (envStepEmpty 0) "job1" "md" storeOne).store "job1").map
      PlaybookData.status) = some .complete := by
  refine ⟨rfl, rfl⟩

/-- C4 amended: an ok response with empty text is accepted as success — the
empty string is stored under the stage's id and visible to every later
stage's `previousSteps` — and the run completes; only at final assembly does
the falsy empty string get replaced by the `Generation failed` placeholder. -/
theorem empty_output_amended (k : Nat) (hk : k < 4) :
    ((processInBackground (envStepEmpty k) "job1" "md" storeOne).invocations.get? (k + 1)).map
      (fun inv => lookupStr inv.previousSteps ((steps.map StageDef.id).getD k "")) =
      some (some "") ∧
    ((Store.get (processInBackground (envStepEmpty k) "job1" "md" storeOne).store "job1").map
      PlaybookData.status) = some .complete := by
  interval_cases k <;> exact ⟨rfl, rfl⟩

/-- C4 witness: empty ok output of stage 1 is looked up as the empty string in
stage 2's `previousSteps`. -/
theorem empty_output_amended_witness :
    ((processInBackground (envStepEmpty 0) "job1" "md" storeOne).invocations.get? 1).map
      (fun inv => lookupStr inv.previousSteps ((steps.map StageDef.id).getD 0 "")) =
      some (some "") :=
  (empty_output_amended 0 (by decide)).1

/-- Reading back the key just written. -/
theorem Store.get_set_self (s : Store) (k : String) (v : PlaybookData) :
    Store.get (Store.set s k v) k = some v := by
  induction s with
  | nil => simp [Store.set, Store.get]
  | cons hd tl ih =>
      by_cases h : hd.1 = k
      · simp [Store.set, Store.get, h]
      · simpa [Store.set, Store.get, h] using ih

/-- C8: an accepted `start` answers ok with the job id and poll URL, and the
initial `processing` record is already in the store that the response is
issued against — a status query on that store can never answer `NotFound` for
this id — and the response is the same whatever the stage environment later
does, i.e. `start` does not wait for any stage. -/
theorem start_synchronous_write (store : Store) (jobId createdAt : String)
    (md : Option String) (env env' : Env) (h : validMarkdown md = true) :
    (simpleStartPost store jobId createdAt md).1 =
      StartResponse.ok jobId .processing ("/api/jobs/simple-status?id=" ++ jobId) ∧
    Store.get (simpleStartPost store jobId createdAt md).2 jobId =
      some (initialRecord createdAt) ∧
    (∀ e, simpleStatusGet (simpleStartPost store jobId createdAt md).2 (some jobId) ≠
      GetResult.notFound e) ∧
    (simpleStartFull env store jobId createdAt md).1 =
      (simpleStartFull env' store jobId createdAt md).1 := by
  refine ⟨by simp [simpleStartPost, h], ?_, ?_, ?_⟩
  · simp only [simpleStartPost, h, if_true]
    exact Store.get_set_self store jobId (initialRecord createdAt)
  · intro e
    simp only [simpleStartPost, h, if_true]
    by_cases hid : jobId = ""
    · simp [simpleStatusGet, hid]
    · simp [simpleStatusGet, hid, Store.get_set_self]
  · simp [simpleStartFull, simpleStartPost, h]

/-- C8 witness: the synchronous-write contract applied to a concrete request,
with two different stage environments. -/
theorem start_synchronous_write_witness :
    Store.get (simpleStartPost [] "j1" "T" (some "hello")).2 "j1" =
      some (initialRecord "T") :=
  (start_synchronous_write [] "j1" "T" (some "hello") envAllOk (envStepNotOk 2)
    (by decide)).2.1

/-- Store invariant through the stage loop: the job's record stays present,
only its `progress` ever changes (status, playbook, error and creation time
are untouched by loop writes), the final record is the last write (or the
starting record when nothing was written), and every write keeps the starting
status. -/
theorem runSteps_store_writes (env : Env) (jobId md : String) (ctx : Ctx)
    (l : List (Nat × StageDef)) :
    ∀ (store : Store) (sr prev : List (String × String)) (j0 : PlaybookData),
      Store.get store jobId = some j0 →
      ∃ jN, Store.get (runSteps env jobId md ctx l store sr prev).store jobId = some jN ∧
        ((runSteps env jobId md ctx l store sr prev).writes = [] ∧ jN = j0 ∨
          ((runSteps env jobId md ctx l store sr prev).writes).getLast? = some jN) ∧
        jN.status = j0.status ∧ jN.playbook = j0.playbook ∧ jN.error = j0.error ∧
        jN.createdAt = j0.createdAt ∧
        ∀ w ∈ (runSteps env jobId md ctx l store sr prev).writes, w.status = j0.status := by
  induction l with
  | nil =>
      intro store sr prev j0 h
      exact ⟨j0, h, Or.inl ⟨rfl, rfl⟩, rfl, rfl, rfl, rfl, by simp [runSteps]⟩
  | cons p rest ih =>
      intro store sr prev j0 h
      obtain ⟨i, s⟩ := p
      rcases houtcome : env.stepOutcome i with msg | result | _
      · refine ⟨stepProgress i s j0, ?_, ?_, rfl, rfl, rfl, rfl, ?_⟩
        · simp [runSteps, updateJob, h, houtcome, Store.get_set_self]
        · right
          simp [runSteps, updateJob, h, houtcome]
        · simp only [runSteps, updateJob, h, houtcome]
          intro w hw
          simp at hw
          subst hw
          rfl
      · obtain ⟨jN, hget, hlast, hst, hpb, herr, hca, hall⟩ :=
          ih (Store.set store jobId (stepProgress i s j0))
            (sr ++ [(s.id, result)]) (prev ++ [(s.id, result)]) (stepProgress i s j0)
            (Store.get_set_self store jobId _)
        refine ⟨jN, ?_, ?_, hst, hpb, herr, hca, ?_⟩
        · simpa [runSteps, updateJob, h, houtcome] using hget
        · right
          simp only [runSteps, updateJob, h, houtcome]
          rcases hlast with ⟨hnil, hj⟩ | hsome
          · simp [hnil, hj]
          · rcases hx : (runSteps env jobId md ctx rest
                (Store.set store jobId (stepProgress i s j0))
                (sr ++ [(s.id, result)]) (prev ++ [(s.id, result)])).writes with _ | ⟨a, as⟩
            · rw [hx] at hsome
              simp at hsome
            · rw [hx] at hsome
              simpa using hsome
        · simp only [runSteps, updateJob, h, houtcome]
          intro w hw
          simp at hw
          rcases hw with hw | hw
          · subst hw
            rfl
          · exact hall w hw
      · obtain ⟨jN, hget, hlast, hst, hpb, herr, hca, hall⟩ :=
          ih (Store.set store jobId (stepProgress i s j0))
            (sr ++ [(s.id, "Failed to generate " ++ s.id)]) prev (stepProgress i s j0)
            (Store.get_set_self store jobId _)
        refine ⟨jN, ?_, ?_, hst, hpb, herr, hca, ?_⟩
        · simpa [runSteps, updateJob, h, houtcome] using hget
        · right
          simp only [runSteps, updateJob, h, houtcome]
          rcases hlast with ⟨hnil, hj⟩ | hsome
          · simp [hnil, hj]
          · rcases hx : (runSteps env jobId md ctx rest
                (Store.set store jobId (stepProgress i s j0))
                (sr ++ [(s.id, "Failed to generate " ++ s.id)]) prev).writes with _ | ⟨a, as⟩
            · rw [hx] at hsome
              simp at hsome
            · rw [hx] at hsome
              simpa using hsome
        · simp only [runSteps, updateJob, h, houtcome]
          intro w hw
          simp at hw
          rcases hw with hw | hw
          · subst hw
            rfl
          · exact hall w hw

/-- A loop that aborts with an error message got it from a rejected stage
call. -/
theorem runSteps_outcome_error (env : Env) (jobId md : String) (ctx : Ctx)
    (l : List (Nat × StageDef)) :
    ∀ (store : Store) (sr prev : List (String × String)) (msg : String),
      (runSteps env jobId md ctx l store sr prev).outcome = .error msg →
      ∃ i, env.stepOutcome i = .thrown msg := by
  induction l with
  | nil =>
      intro store sr prev msg h
      simp [runSteps] at h
  | cons p rest ih =>
      intro store sr prev msg h
      obtain ⟨i, s⟩ := p
      rcases houtcome : env.stepOutcome i with m | result | _ <;>
        simp only [runSteps, houtcome] at h
      · obtain rfl : m = msg := by simpa [updateJob] using h
        exact ⟨i, houtcome⟩
      · exact ih _ _ _ _ h
      · exact ih _ _ _ _ h

/-- Shape of one background run started on a `processing` record: its write
sequence is a body of `processing`-status writes followed by exactly one
terminal write, and that terminal write is `markComplete` or `markFailed`
applied to the record current at that moment (the last body write, or the
starting record); a `markFailed` message always comes from a rejected
context-extraction or stage call. -/
theorem processInBackground_structure (env : Env) (jobId markdown : String)
    (store : Store) (j0 : PlaybookData) (h : Store.get store jobId = some j0)
    (hst : j0.status = .processing) :
    ∃ body term, (processInBackground env jobId markdown store).writes = body ++ [term] ∧
      (∀ w ∈ body, w.status = .processing) ∧
      ∃ pen, (j0 :: body).getLast? = some pen ∧
        ((∃ fp, term = markComplete fp pen) ∨
         (∃ msg, term = markFailed msg pen ∧
           (env.ctxResult = .error msg ∨ ∃ i, env.stepOutcome i = .thrown msg))) := by
  rcases hctx : env.ctxResult with msg | ctx
  · simp only [processInBackground, updateJob, h, hctx, Store.get_set_self]
    refine ⟨_, _, rfl, ?_, ?_⟩
    · intro w hw
      simp at hw
      subst hw
      simp [extractProgress, hst]
    · refine ⟨_, by simp, Or.inr ⟨msg, rfl, Or.inl rfl⟩⟩
  · obtain ⟨jN, hget, hlast, hstN, hpbN, herrN, hcaN, hall⟩ :=
      runSteps_store_writes env jobId markdown ctx steps.enum
        (Store.set (Store.set store jobId (extractProgress j0)) jobId
          (analysisProgress (extractProgress j0)))
        [] [] _ (Store.get_set_self _ _ _)
    simp only [processInBackground, updateJob, h, hctx, Store.get_set_self]
    split
    · rename_i msg houtcome
      simp only [updateJob, hget]
      refine ⟨_, _, rfl, ?_, ?_⟩
      · intro w hw
        simp at hw
        rcases hw with hw | hw | hw
        · subst hw
          simp [extractProgress, hst]
        · subst hw
          simp [analysisProgress, extractProgress, hst]
        · simpa [analysisProgress, extractProgress, hst] using hall w hw
      · refine ⟨jN, ?_, Or.inr ⟨msg, rfl, Or.inr
          (runSteps_outcome_error env jobId markdown ctx steps.enum _ _ _ msg houtcome)⟩⟩
        rcases hlast with ⟨hnil, hj⟩ | hsome
        · simp [hnil, hj]
        · rcases hx : (runSteps env jobId markdown ctx steps.enum
              (Store.set (Store.set store jobId (extractProgress j0)) jobId
                (analysisProgress (extractProgress j0))) [] []).writes with _ | ⟨a, as⟩
          · rw [hx] at hsome
            simp at hsome
          · rw [hx] at hsome
            simp [hx, hsome]
    · rename_i sr houtcome
      simp only [updateJob, hget]
      refine ⟨_, _, rfl, ?_, ?_⟩
      · intro w hw
        simp at hw
        rcases hw with hw | hw | hw
        · subst hw
          simp [extractProgress, hst]
        · subst hw
          simp [analysisProgress, extractProgress, hst]
        · simpa [analysisProgress, extractProgress, hst] using hall w hw
      · refine ⟨jN, ?_, Or.inl ⟨_, rfl⟩⟩
        rcases hlast with ⟨hnil, hj⟩ | hsome
        · simp [hnil, hj]
        · rcases hx : (runSteps env jobId markdown ctx steps.enum
              (Store.set (Store.set store jobId (extractProgress j0)) jobId
                (analysisProgress (extractProgress j0))) [] []).writes with _ | ⟨a, as⟩
          · rw [hx] at hsome
            simp at hsome
          · rw [hx] at hsome
            simp [hx, hsome]

/-- C3: across every environment, every entry of a job's write sequence
except the final one carries status `processing`: the terminal transition
(`complete` or `failed`) is the last write ever performed for the job, so
once a poller sees a terminal status nothing mutates the record again —
reads are pure — and no transition from a terminal status back to
`processing` can ever be observed. -/
theorem terminal_immutability (env : Env) (jobId createdAt markdown : String)
    (store0 : Store) :
    ((jobTrace env jobId createdAt markdown store0).dropLast.all
      (fun p => p.status == Status.processing)) = true := by
  obtain ⟨body, term, hw, hbody, -⟩ :=
    processInBackground_structure env jobId markdown
      (Store.set store0 jobId (initialRecord createdAt)) (initialRecord createdAt)
      (Store.get_set_self _ _ _) rfl
  unfold jobTrace
  rw [hw, ← List.cons_append, List.dropLast_concat, List.all_eq_true]
  intro w hw2
  rcases List.mem_cons.mp hw2 with hw3 | hw3
  · subst hw3
    rfl
  · simpa using hbody w hw3

/-- C10: whenever a job's write sequence ends in a `failed` record, that
terminal write is exactly `markFailed` applied to the immediately preceding
record: it sets `status := failed` and `error := some msg` — where `msg` is
the message of the exception that aborted the run — and leaves `createdAt`,
`progress` and the `playbook` field with the values they had just before the
failure. -/
theorem failure_frame (env : Env) (jobId createdAt markdown : String) (store0 : Store)
    (last : PlaybookData)
    (hlast : (jobTrace env jobId createdAt markdown store0).getLast? = some last)
    (hfailed : last.status = .failed) :
    ∃ prev msg,
      (jobTrace env jobId createdAt markdown store0).dropLast.getLast? = some prev ∧
      last = markFailed msg prev ∧
      last.createdAt = prev.createdAt ∧ last.progress = prev.progress ∧
      last.playbook = prev.playbook ∧ last.error = some msg ∧
      (env.ctxResult = .error msg ∨ ∃ i, env.stepOutcome i = .thrown msg) := by
  obtain ⟨body, term, hw, hbody, pen, hpen, hterm⟩ :=
    processInBackground_structure env jobId markdown
      (Store.set store0 jobId (initialRecord createdAt)) (initialRecord createdAt)
      (Store.get_set_self _ _ _) rfl
  have htr : jobTrace env jobId createdAt markdown store0 =
      (initialRecord createdAt :: body) ++ [term] := by
    unfold jobTrace
    rw [hw, ← List.cons_append]
  rw [htr, List.getLast?_concat] at hlast
  obtain rfl : term = last := by injection hlast
  rw [htr, List.dropLast_concat]
  rcases hterm with ⟨fp, hc⟩ | ⟨msg, hf, horigin⟩
  · rw [hc] at hfailed
    simp [markComplete] at hfailed
  · exact ⟨pen, msg, hpen, hf, by rw [hf]; rfl, by rw [hf]; rfl, by rw [hf]; rfl,
      by rw [hf]; rfl, horigin⟩

/-- C10 witness: the frame condition applied to the run whose third stage
call rejects with `boom`. -/
theorem failure_frame_witness :
    ∃ prev msg,
      (jobTrace (envStepThrown 2 "boom") "job1" "T" "md" []).dropLast.getLast? = some prev ∧
      ({ status := .failed, playbook := none, error := some "boom", createdAt := "T",
         progress := ⟨5, 6, "Developing platform strategy", 20⟩ } : PlaybookData) =
        markFailed msg prev ∧
      ({ status := .failed, playbook := none, error := some "boom", createdAt := "T",
         progress := ⟨5, 6, "Developing platform strategy", 20⟩ } : PlaybookData).createdAt =
        prev.createdAt ∧
      ({ status := .failed, playbook := none, error := some "boom", createdAt := "T",
         progress := ⟨5, 6, "Developing platform strategy", 20⟩ } : PlaybookData).progress =
        prev.progress ∧
      ({ status := .failed, playbook := none, error := some "boom", createdAt := "T",
         progress := ⟨5, 6, "Developing platform strategy", 20⟩ } : PlaybookData).playbook =
        prev.playbook ∧
      ({ status := .failed, playbook := none, error := some "boom", createdAt := "T",
         progress := ⟨5, 6, "Developing platform strategy", 20⟩ } : PlaybookData).error =
        some msg ∧
      ((envStepThrown 2 "boom").ctxResult = .error msg ∨
        ∃ i, (envStepThrown 2 "boom").stepOutcome i = .thrown msg) :=
  failure_frame (envStepThrown 2 "boom") "job1" "T" "md" []
    ⟨.failed, none, some "boom", "T", ⟨5, 6, "Developing platform strategy", 20⟩⟩
    (by rfl) rfl

/-- The outputs of the stages before index `k` that completed successfully,
keyed by stage id, in execution order — stated directly over the enumerated
stage list and the environment, independently of the loop implementation. -/
def okUpTo (env : Env) (l : List (Nat × StageDef)) (k : Nat) : List (String × String) :=
  (l.take k).filterMap (fun p =>
    match env.stepOutcome p.1 with
    | .ok r => some (p.2.id, r)
    | _ => none)

/-- Every request body the stage loop sends carries the original markdown,
the extracted context, the stage's own id, and exactly the successful outputs
of the earlier stages appended to the incoming accumulator, in order. -/
theorem runSteps_invocations (env : Env) (jobId md : String) (ctx : Ctx) :
    ∀ (l : List (Nat × StageDef)) (store : Store) (sr prev : List (String × String))
      (k : Nat) (inv : StepInvocation),
      (runSteps env jobId md ctx l store sr prev).invocations.get? k = some inv →
      inv.markdown = md ∧ inv.context = ctx ∧
      (l.get? k).map (fun p => p.2.id) = some inv.step ∧
      inv.previousSteps = prev ++ okUpTo env l k := by
  intro l
  induction l with
  | nil =>
      intro store sr prev k inv h
      simp [runSteps] at h
  | cons p rest ih =>
      intro store sr prev k inv h
      obtain ⟨i, s⟩ := p
      rcases houtcome : env.stepOutcome i with msg | result | _ <;>
        simp only [runSteps, houtcome] at h
      · match k with
        | 0 =>
            obtain rfl : (⟨md, ctx, s.id, prev⟩ : StepInvocation) = inv := by
              simpa using h
            exact ⟨rfl, rfl, rfl, by simp [okUpTo]⟩
        | k + 1 => simp at h
      · match k with
        | 0 =>
            obtain rfl : (⟨md, ctx, s.id, prev⟩ : StepInvocation) = inv := by
              simpa using h
            exact ⟨rfl, rfl, rfl, by simp [okUpTo]⟩
        | k + 1 =>
            obtain ⟨h1, h2, h3, h4⟩ := ih _ _ _ k inv (by simpa using h)
            refine ⟨h1, h2, by simpa using h3, ?_⟩
            rw [h4]
            simp [okUpTo, houtcome]
      · match k with
        | 0 =>
            obtain rfl : (⟨md, ctx, s.id, prev⟩ : StepInvocation) = inv := by
              simpa using h
            exact ⟨rfl, rfl, rfl, by simp [okUpTo]⟩
        | k + 1 =>
            obtain ⟨h1, h2, h3, h4⟩ := ih _ _ _ k inv (by simpa using h)
            refine ⟨h1, h2, by simpa using h3, ?_⟩
            rw [h4]
            simp [okUpTo, houtcome]

/-- The id at position `k` of the enumerated stage list is the id at
position `k` of the stage list. -/
theorem steps_enum_get (k : Nat) :
    (steps.enum.get? k).map (fun p => p.2.id) = (steps.get? k).map StageDef.id := by
  match k with
  | 0 => rfl
  | 1 => rfl
  | 2 => rfl
  | 3 => rfl
  | 4 => rfl
  | n + 5 => rfl

/-- C9: when context extraction succeeded, the `k`-th stage call of a
background run receives the original request markdown, the extracted summary
context, the `k`-th stage's id, and — keyed by stage id, in execution order —
exactly the outputs of the previously completed (successful) stages, so each
later stage sees every earlier stage's text. -/
theorem stage_context_contents (env : Env) (jobId markdown : String) (store : Store)
    (ctx : Ctx) (hctx : env.ctxResult = .ok ctx) (k : Nat) (inv : StepInvocation)
    (h : (processInBackground env jobId markdown store).invocations.get? k = some inv) :
    inv.markdown = markdown ∧ inv.context = ctx ∧
    (steps.get? k).map StageDef.id = some inv.step ∧
    inv.previousSteps = okUpTo env steps.enum k := by
  simp only [processInBackground, hctx] at h
  rw [← steps_enum_get]
  split at h
  · exact runSteps_invocations env jobId markdown ctx steps.enum _ _ _ k inv h
  · exact runSteps_invocations env jobId markdown ctx steps.enum _ _ _ k inv h

/-- C9 witness: in the all-successful run, the second stage call's
`previousSteps` is exactly the first stage's output. -/
theorem stage_context_contents_witness :
    (⟨"md", ctxA, "launch-timeline", [("target-user-analysis", "X")]⟩ :
        StepInvocation).previousSteps = okUpTo envAllOk steps.enum 1 :=
  (stage_context_contents envAllOk "job1" "md" storeOne ctxA rfl 1
    ⟨"md", ctxA, "launch-timeline", [("target-user-analysis", "X")]⟩ rfl).2.2.2

end LaunchWeek
